import Mathlib

/-!
Shallow embedding of the core of the `assyst` repository
(structure generation, perturbation and lineage utilities) together with
proofs about the behaviour of the embedded code.

Source files embedded here:
  * `assyst/utils.py`          (`update_uuid`)
  * `assyst/crystals.py`       (`Formulas`, `sample_space_groups`)
  * `assyst/perturbations.py`  (`rattle`, `element_scaled_rattle`, `stretch`,
                                `PerturbationABC`, `apply_perturbations`,
                                `Rattle`, `ElementScaledRattle`, `Stretch`,
                                `Series`, `RandomChoice`)

Modelling conventions:
  * Python dicts with string keys are modelled as insertion-ordered
    association lists (`List (String × _)`); lookup takes the first match.
  * `ase.Atoms` is modelled by the data the embedded code actually touches:
    chemical symbols, positions, the cell matrix and the `info` metadata map
    restricted to the keys `uuid`, `lineage`, `seed` and `perturbation`.
  * A numpy `Generator` is modelled as an object identity tag (`ref`,
    standing for the Python object id: numpy generators define no `__eq__`,
    so `==` on them is object identity) together with its
    `bit_generator.state`, abstracted as the stream of rationals the
    generator will produce next.  Distributional transforms (`normal`,
    `uniform`, `choice`) are modelled as fixed deterministic functions of
    the stream; only the state threading matters for the properties below.
  * `raise ValueError` is modelled as `Except.error`.
  * Python lists that may be aliased between objects (the `lineage` list)
    are modelled with an explicit heap (`Heap`) of lists addressed by `Nat`
    pointers, so that copy-on-write versus in-place mutation is observable.
-/

/-! ## Basic data model -/

/-- A stoichiometry map (Python `dict[str, int]`), insertion ordered. -/
abbrev Stoich := List (String × Int)

/-- The heap of lineage lists; `info["lineage"]` holds a pointer into it. -/
abbrev Heap := List (List String)

/-- The metadata keys of `Atoms.info` that the embedded code reads/writes.
`lineage` is a pointer into the ambient `Heap` (Python list object). -/
structure Info where
  uuid : Option String := none
  lineage : Option Nat := none
  seed : Option String := none
  perturbation : Option String := none
  deriving Repr, DecidableEq

/-- The slice of `ase.Atoms` used by the embedded code.  Positions and cell
rows are lists of rationals; `len(structure)` is `positions.length`. -/
structure Atoms where
  symbols : List String
  positions : List (List ℚ)
  cell : List (List ℚ)
  info : Info := {}
  deriving Repr, DecidableEq

/-! ## `assyst/utils.py` : `update_uuid`

```
def update_uuid(structure: Atoms) -> Atoms:
    if "uuid" in structure.info:
        # Create a new list for lineage to avoid sharing it with parent structures
        lineage = list(structure.info.get("lineage", []))
        lineage.append(structure.info["uuid"])
        structure.info["lineage"] = lineage
    new_uuid = str(uuid.uuid4())
    structure.info["uuid"] = new_uuid
    if "seed" not in structure.info:
        structure.info["seed"] = new_uuid
    return structure
```

`uuid.uuid4()` is external entropy; the freshly generated identifier is
passed in as the argument `fresh`.  `list(...)` allocates a new list object:
in the model this is an allocation of a new heap cell, never a write to an
existing one. -/

/-- Read the list a lineage pointer denotes (`info.get("lineage", [])`). -/
def Heap.deref (h : Heap) (p : Option Nat) : List String :=
  match p with
  | none => []
  | some i => h.getD i []

/-- `update_uuid` from `assyst/utils.py`.  Returns the updated structure and
the heap extended with the newly allocated lineage list (if any). -/
def update_uuid (a : Atoms) (fresh : String) (h : Heap) : Atoms × Heap :=
  let step1 : Info × Heap :=
    match a.info.uuid with
    | some old =>
        let copied := h.deref a.info.lineage ++ [old]
        ({ a.info with lineage := some h.length }, h ++ [copied])
    | none => (a.info, h)
  let info1 := step1.1
  let info2 := { info1 with uuid := some fresh }
  let info3 := if info2.seed = none then { info2 with seed := some fresh } else info2
  ({ a with info := info3 }, step1.2)

/-! ## `assyst/crystals.py` : `Formulas` -/

/-- Python `dict` union `a | b`: keys of `a` in order (values overridden by
`b` where present), followed by the keys of `b` not in `a`. -/
def dictUnion (a b : Stoich) : Stoich :=
  a.map (fun kv =>
    match b.lookup kv.1 with
    | some v => (kv.1, v)
    | none => kv)
  ++ b.filter (fun kv => (a.lookup kv.1).isNone)

/-- `Formulas`: a tuple of stoichiometry dicts. -/
structure Formulas where
  atoms : List Stoich
  deriving Repr, DecidableEq

namespace Formulas

/-- Set of elements appearing in any stoichiometry (`Formulas.elements`). -/
def elements (f : Formulas) : List String :=
  (f.atoms.flatMap (fun s => s.map Prod.fst)).dedup

/-- Python `range(start, stop)` (step 1). -/
def pyRange (start stop : Int) : List Int :=
  (List.range (stop - start).toNat).map (fun i => start + (i : Int))

/-- `Formulas.range(element, *range_args)` for a single element symbol:
`cls(tuple({elements: i} for i in range(*range_args)))`.
Note that the builtin `range` starts at 0 when given a single argument. -/
def rangeStartStop (el : String) (start stop : Int) : Formulas :=
  ⟨(pyRange start stop).map (fun i => [(el, i)])⟩

/-- `Formulas.range(element, stop)` — the one-argument form of the builtin
`range`, i.e. counts `0, 1, ..., stop-1`. -/
def rangeStop (el : String) (stop : Int) : Formulas :=
  rangeStartStop el 0 stop

/-- Whether two formulas share no element (`self.elements.isdisjoint(...)`). -/
def disjointElements (f g : Formulas) : Bool :=
  f.elements.all (fun e => ¬ g.elements.contains e)

/-- `Formulas.__or__`: inner product.  Asserts element disjointness, then
zips the two tuples, merging each pair of dicts; truncates to the shorter
input.  `AssertionError` is modelled as `Except.error`. -/
def orF (f g : Formulas) : Except String Formulas :=
  if disjointElements f g then
    .ok ⟨(f.atoms.zip g.atoms).map (fun p => dictUnion p.1 p.2)⟩
  else
    .error "Can only or stoichiometries of different elements!"

/-- `Formulas.__mul__`: outer product (`itertools.product`, left-major),
with the same disjointness assertion. -/
def mulF (f g : Formulas) : Except String Formulas :=
  if disjointElements f g then
    .ok ⟨f.atoms.flatMap (fun me => g.atoms.map (fun you => dictUnion me you))⟩
  else
    .error "Can only multiply stoichiometries of different elements!"

/-- `Formulas.trim(min_atoms, max_atoms)`. -/
def trim (f : Formulas) (minAtoms : Int) (maxAtoms : Option Int) : Formulas :=
  match maxAtoms with
  | some hi => ⟨f.atoms.filter (fun s =>
      minAtoms ≤ (s.map Prod.snd).sum ∧ (s.map Prod.snd).sum ≤ hi)⟩
  | none => ⟨f.atoms.filter (fun s => minAtoms ≤ (s.map Prod.snd).sum)⟩

end Formulas

/-! ## `assyst/crystals.py` : `sample_space_groups`

The function is embedded up to the external sampler (`pyxtal`), which is
passed in as an opaque function argument.  The progress bar (`tqdm`) and the
`max_structures` budget are pure I/O refinements not touched by any claim
and are omitted.  A raised `ValueError` is `Except.error`; the generator
body raises before any structure is produced, which the model reflects by
returning `.error` instead of a structure list. -/

/-- `[58, 75, 80, 230][dim]` — number of (sub-)periodic symmetry groups
available in 0-3 dimensions. -/
def maxGroupFor (dim : Int) : Int :=
  [(58 : Int), 75, 80, 230].getD dim.toNat 0

/-- The validation prefix of `sample_space_groups`: the `dim` range check,
defaulting of `spacegroups`, and the space-group range check.
`min`/`max` of an empty Python list raise `ValueError`, which the model
also surfaces as an error. -/
def sampleSpaceGroupsValidate (dim : Int) (spacegroups : Option (List Int)) :
    Except String (List Int) :=
  if ¬ (0 ≤ dim ∧ dim ≤ 3) then
    .error "dim must be in range [0, 3]!"
  else
    let maxGroup := maxGroupFor dim
    let sgs := spacegroups.getD (Formulas.pyRange 1 (maxGroup + 1))
    match sgs with
    | [] => .error "min() arg is an empty sequence"
    | g :: gs =>
        let minSpg := gs.foldl min g
        let maxSpg := gs.foldl max g
        if minSpg ≤ 0 ∨ maxGroup < maxSpg then
          .error "spacegroups must be in range!"
        else
          .ok sgs

/-- The per-formula body of the sampling loop: drop zero-count elements,
skip empty stoichiometries and those outside `[min_atoms, max_atoms]`,
otherwise defer to the external sampler. -/
def sampleFormula (sampler : List Int → Stoich → List Atoms)
    (sgs : List Int) (minAtoms maxAtoms : Int) (stoich : Stoich) : List Atoms :=
  let stoich := stoich.filter (fun kv => 0 < kv.2)
  if stoich.isEmpty then []
  else if minAtoms ≤ (stoich.map Prod.snd).sum ∧ (stoich.map Prod.snd).sum ≤ maxAtoms then
    sampler sgs stoich
  else []

/-- `sample_space_groups`, with the external `pyxtal` sampler abstracted as
the argument `sampler`.  Errors are surfaced before any structure is
produced. -/
def sampleSpaceGroups (sampler : List Int → Stoich → List Atoms)
    (formulas : List Stoich) (spacegroups : Option (List Int))
    (minAtoms : Int := 1) (maxAtoms : Int := 10) (dim : Int := 3) :
    Except String (List Atoms) :=
  match sampleSpaceGroupsValidate dim spacegroups with
  | .error e => .error e
  | .ok sgs => .ok (formulas.flatMap (sampleFormula sampler sgs minAtoms maxAtoms))

/-! ## Random generators (`numpy.random.Generator`) -/

/-- A numpy `Generator`: an object identity tag `ref` (numpy generators
define no `__eq__`, so Python `==` on them is object identity) and its
`bit_generator.state`, abstracted as the stream of rationals it will
produce next. -/
structure Generator where
  ref : Nat
  state : List ℚ
  deriving Repr, DecidableEq

/-- The bit-generator state alone.  Drawing from a `Generator` never touches
its object identity, so the numeric helpers below are written against the
state and the class-based `__call__` layer reattaches the `ref`. -/
abbrev RngState := List ℚ

/-- Draw one value (`rng.random()`) and advance the state. -/
def stateNext (st : RngState) : ℚ × RngState :=
  (st.headD 0, st.tail)

/-- Draw `n` values and advance the state (row-major consumption of a
`size=n` numpy call). -/
def stateDraws (st : RngState) (n : Nat) : List ℚ × RngState :=
  ((List.range n).map (fun i => st.getD i 0), st.drop n)

/-- `np.random.default_rng(seed)`: allocates a fresh `Generator` object
whose bit-generator state is a function of the seed; the model takes that
state directly and threads an allocation counter for the object identity. -/
def defaultRng (seedState : List ℚ) (c : Nat) : Generator × Nat :=
  (⟨c, seedState⟩, c + 1)

/-! ## `assyst/perturbations.py` : in-place helper functions -/

/-- `PerturbationABC.__call__`: the `perturbation` metadata tag update.
```
if "perturbation" not in structure.info:
    structure.info["perturbation"] = str(self)
else:
    structure.info["perturbation"] += "+" + str(self)
```
-/
def applyTag (old : Option String) (name : String) : Option String :=
  match old with
  | none => some name
  | some t => some (t ++ "+" ++ name)

/-- Apply the tag update to a structure (mutates `structure.info` in place
in Python; the caller is responsible for the aliasing bookkeeping). -/
def tagPerturbation (a : Atoms) (name : String) : Atoms :=
  { a with info := { a.info with perturbation := applyTag a.info.perturbation name } }

/-- One position row displaced by gaussian noise: `row + s * draws`.  The
gaussian transform of the underlying bit stream is abstracted as the draw
itself scaled by the standard deviation. -/
def addNoiseRow (row : List ℚ) (s : ℚ) (ds : List ℚ) : List ℚ :=
  List.zipWith (fun x d => x + s * d) row ds

/-- `positions + rng.normal(scale=stdev, size=positions.shape)` with a
per-atom standard deviation vector, consuming three draws per atom in
row-major order. -/
def rattlePositions : List (List ℚ) → List ℚ → RngState → List (List ℚ) × RngState
  | [], _, st => ([], st)
  | row :: rest, sigmas, st =>
      let r1 := stateDraws st 3
      let row2 := addNoiseRow row (sigmas.headD 0) r1.1
      let r2 := rattlePositions rest sigmas.tail r1.2
      (row2 :: r2.1, r2.2)

/-- The array-stdev core of the module function `rattle` (the shape that
`element_scaled_rattle` calls with `sigma.reshape(-1, 1)`): raises on
single-atom structures, otherwise displaces every coordinate. -/
def rattleVecFn (a : Atoms) (sigmas : List ℚ) (st : RngState) :
    Except String (Atoms × RngState) :=
  if a.positions.length = 1 then
    .error "Can only rattle structures larger than one atom."
  else
    let r := rattlePositions a.positions sigmas st
    .ok ({ a with positions := r.1 }, r.2)

/-- Module function `rattle(structure, sigma, rng)` with a scalar sigma and
a generator rng (the path the class-based perturbations use). -/
def rattleFn (a : Atoms) (sigma : ℚ) (st : RngState) :
    Except String (Atoms × RngState) :=
  rattleVecFn a (a.positions.map (fun _ => sigma)) st

/-- The per-atom standard deviations `sigma * reference[sym]` built by
`element_scaled_rattle`; `none` when some element is missing from the
reference map (`KeyError` → `ValueError`). -/
def buildSigmas (syms : List String) (sigma : ℚ) (reference : List (String × ℚ)) :
    Option (List ℚ) :=
  syms.mapM (fun s => (reference.lookup s).map (fun r => sigma * r))

/-- Module function `element_scaled_rattle(structure, sigma, reference, rng)`.
Checks reference positivity first, then element coverage, then defers to
`rattle` (whose single-atom check therefore fires last). -/
def elementScaledRattleFn (a : Atoms) (sigma : ℚ) (reference : List (String × ℚ))
    (st : RngState) : Except String (Atoms × RngState) :=
  if ¬ reference.all (fun kv => 0 < kv.2) then
    .error "Reference lengths must be strictly positive!"
  else
    match buildSigmas a.symbols sigma reference with
    | none => .error "No value for element provided in argument reference!"
    | some sigmas => rattleVecFn a sigmas st

/-- `get_strains(max_strain, size=3)` from the module function `stretch`:
three sign draws (`rng.choice([-1, 1], size=3)`, modelled as `-1` when the
draw is below `1/2`) followed by three magnitude draws
(`rng.uniform(minimum_strain, max_strain, size=3)`). -/
def getStrains (st : RngState) (minStrain maxStrain : ℚ) : List ℚ × RngState :=
  let rs := stateDraws st 3
  let rm := stateDraws rs.2 3
  (List.zipWith
    (fun s d => (if s < 1/2 then (-1 : ℚ) else 1) * (minStrain + (maxStrain - minStrain) * d))
    rs.1 rm.1, rm.2)

/-- The symmetric strain matrix built by `stretch`: off-diagonal entries
mirrored from `np.triu_indices(3, k=1)` (order `(0,1), (0,2), (1,2)`) and
diagonal entries `1 + hydrostatic strain`. -/
def strainMatrix (off diag : List ℚ) : List (List ℚ) :=
  let o01 := off.getD 0 0
  let o02 := off.getD 1 0
  let o12 := off.getD 2 0
  let h0 := diag.getD 0 0
  let h1 := diag.getD 1 0
  let h2 := diag.getD 2 0
  [[1 + h0, o01, o02], [o01, 1 + h1, o12], [o02, o12, 1 + h2]]

/-- Row vector times matrix. -/
def vecMat (v : List ℚ) (m : List (List ℚ)) : List ℚ :=
  (List.range (m.headD []).length).map (fun j =>
    (List.zipWith (fun vi row => vi * row.getD j 0) v m).sum)

/-- Matrix product (rows of `a` times `b`). -/
def matMul (a b : List (List ℚ)) : List (List ℚ) :=
  a.map (fun row => vecMat row b)

/-- Module function `stretch(structure, hydro, shear, minimum_strain, rng)`.
Draws the off-diagonal (shear) strains first, then the diagonal (hydro)
ones, and applies `set_cell(cell @ strain, scale_atoms=True)`: fractional
coordinates are preserved, which for an invertible cell amounts exactly
to right-multiplying the positions by the strain matrix. -/
def stretchFn (a : Atoms) (hydro shear minStrain : ℚ) (st : RngState) :
    Atoms × RngState :=
  let ro := getStrains st minStrain shear
  let rd := getStrains ro.2 minStrain hydro
  let strain := strainMatrix ro.1 rd.1
  ({ a with cell := matMul a.cell strain, positions := matMul a.positions strain }, rd.2)

/-- `structure.repeat(2)`: the 2×2×2 periodic replica built for single-atom
structures when `create_supercells` is set.  Allocates a new `Atoms` object
(the object of the caller is no longer aliased); `info` is copied over. -/
def repeat2 (a : Atoms) : Atoms :=
  let c0 := a.cell.getD 0 []
  let c1 := a.cell.getD 1 []
  let c2 := a.cell.getD 2 []
  let reps : List (ℚ × ℚ × ℚ) :=
    [(0,0,0), (0,0,1), (0,1,0), (0,1,1), (1,0,0), (1,0,1), (1,1,0), (1,1,1)]
  { symbols := reps.flatMap (fun _ => a.symbols)
    positions := reps.flatMap (fun r =>
      a.positions.map (fun p =>
        List.zipWith (· + ·)
          (List.zipWith (· + ·) p (c0.map (r.1 * ·)))
          (List.zipWith (· + ·) (c1.map (r.2.1 * ·)) (c2.map (r.2.2 * ·)))))
    cell := a.cell.map (fun row => row.map (2 * ·))
    info := a.info }

/-! ## `assyst/perturbations.py` : the class-based perturbations

The closed set of perturbation shapes (`Rattle`, `ElementScaledRattle`,
`Stretch`, `Series`, `RandomChoice`).  `Series` holds a tuple of child
perturbations, represented by the mutually defined sequence type. -/

mutual
inductive Pert where
  | rattleP (sigma : ℚ) (createSupercells : Bool) (rng : Generator)
  | elementScaledRattleP (sigma : ℚ) (reference : List (String × ℚ))
      (createSupercells : Bool) (rng : Generator)
  | stretchP (hydro shear minimumStrain : ℚ) (rng : Generator)
  | seriesP (perturbations : PertSeq)
  | randomChoiceP (choiceA choiceB : Pert) (chance : ℚ) (rng : Generator)

inductive PertSeq where
  | nil
  | cons (head : Pert) (tail : PertSeq)
end

/-- `str(Rattle(sigma))` = `f"rattle({self.sigma})"`. -/
def rattleStr (sigma : ℚ) : String := "rattle(" ++ toString sigma ++ ")"

/-- `str(ElementScaledRattle(...))` = `f"scaled_rattle({self.sigma})"`. -/
def scaledRattleStr (sigma : ℚ) : String := "scaled_rattle(" ++ toString sigma ++ ")"

/-- `str(Stretch(...))` = `f"stretch(hydro={self.hydro}, shear={self.shear})"`. -/
def stretchStr (hydro shear : ℚ) : String :=
  "stretch(hydro=" ++ toString hydro ++ ", shear=" ++ toString shear ++ ")"

mutual
/-- `str(self)` for every perturbation class. -/
def Pert.str : Pert → String
  | .rattleP sigma _ _ => rattleStr sigma
  | .elementScaledRattleP sigma _ _ _ => scaledRattleStr sigma
  | .stretchP hydro shear _ _ => stretchStr hydro shear
  | .seriesP ps => PertSeq.strJoin ps
  | .randomChoiceP a b _ _ => Pert.str a ++ "|" ++ Pert.str b

/-- `"+".join(str(mod) for mod in self.perturbations)`. -/
def PertSeq.strJoin : PertSeq → String
  | .nil => ""
  | .cons p .nil => Pert.str p
  | .cons p ps@(.cons _ _) => Pert.str p ++ "+" ++ PertSeq.strJoin ps
end

/-- `Rattle.__call__`.  Returns the result (`Except` for `ValueError`), the
final state of the object the caller passed in (Python mutates it in place
unless `repeat` rebound the local variable to a fresh object), and the
generator after the call.
```
def __call__(self, structure):
    if self.create_supercells and len(structure) == 1:
        structure = structure.repeat(2)
    structure = super().__call__(structure)
    return rattle(structure, self.sigma, rng=self.rng)
```
-/
def rattleCallCore (sigma : ℚ) (cs : Bool) (st : RngState) (a : Atoms) :
    (Except String Atoms) × Atoms × RngState :=
  let aliased := ¬ (cs ∧ a.positions.length = 1)
  let s0 := if cs ∧ a.positions.length = 1 then repeat2 a else a
  let s1 := tagPerturbation s0 (rattleStr sigma)
  match rattleFn s1 sigma st with
  | .error e => (.error e, if aliased then s1 else a, st)
  | .ok r => (.ok r.1, if aliased then r.1 else a, r.2)

/-- `ElementScaledRattle.__call__`, with the same shape as `Rattle`. -/
def elementScaledRattleCallCore (sigma : ℚ) (reference : List (String × ℚ))
    (cs : Bool) (st : RngState) (a : Atoms) :
    (Except String Atoms) × Atoms × RngState :=
  let aliased := ¬ (cs ∧ a.positions.length = 1)
  let s0 := if cs ∧ a.positions.length = 1 then repeat2 a else a
  let s1 := tagPerturbation s0 (scaledRattleStr sigma)
  match elementScaledRattleFn s1 sigma reference st with
  | .error e => (.error e, if aliased then s1 else a, st)
  | .ok r => (.ok r.1, if aliased then r.1 else a, r.2)

/-- `Stretch.__call__`: tags, then defers to the module function `stretch`.
Never raises; always operates on the object the caller passed in. -/
def stretchCallCore (hydro shear minStrain : ℚ) (st : RngState) (a : Atoms) :
    Atoms × RngState :=
  stretchFn (tagPerturbation a (stretchStr hydro shear)) hydro shear minStrain st

mutual
/-- `__call__` of every perturbation class.  Returns the result and the
perturbation with its generator(s) advanced (`self.rng` is mutated in place
in Python).
  * `Series.__call__` applies its members in order, never calling the tag
    update on its own behalf; an exception from a member propagates.
  * `RandomChoice.__call__` draws once from its own generator and applies
    `choice_a` when `draw > chance`, otherwise `choice_b`; it never calls
    the tag update on its own behalf. -/
def Pert.call : Pert → Atoms → (Except String Atoms) × Pert
  | .rattleP sigma cs g, a =>
      let r := rattleCallCore sigma cs g.state a
      (r.1, .rattleP sigma cs ⟨g.ref, r.2.2⟩)
  | .elementScaledRattleP sigma ref cs g, a =>
      let r := elementScaledRattleCallCore sigma ref cs g.state a
      (r.1, .elementScaledRattleP sigma ref cs ⟨g.ref, r.2.2⟩)
  | .stretchP hydro shear ms g, a =>
      let r := stretchCallCore hydro shear ms g.state a
      (.ok r.1, .stretchP hydro shear ms ⟨g.ref, r.2⟩)
  | .seriesP ps, a =>
      let r := PertSeq.callSeq ps a
      (r.1, .seriesP r.2)
  | .randomChoiceP ca cb chance g, a =>
      let d := stateNext g.state
      if chance < d.1 then
        let r := Pert.call ca a
        (r.1, .randomChoiceP r.2 cb chance ⟨g.ref, d.2⟩)
      else
        let r := Pert.call cb a
        (r.1, .randomChoiceP ca r.2 chance ⟨g.ref, d.2⟩)

/-- `Series.__call__` body: fold the members over the structure; a raised
`ValueError` aborts the remaining members and propagates. -/
def PertSeq.callSeq : PertSeq → Atoms → (Except String Atoms) × PertSeq
  | .nil, a => (.ok a, .nil)
  | .cons p ps, a =>
      match Pert.call p a with
      | (.error e, p2) => (.error e, .cons p2 ps)
      | (.ok a2, p2) =>
          let r := PertSeq.callSeq ps a2
          (r.1, .cons p2 r.2)
end

/-! ### Serialization (`__getstate__` / `__setstate__`)

Every stateful perturbation dataclass defines
```
def __getstate__(self):
    state = self.__dict__.copy()
    state["rng"] = self.rng.bit_generator.state
    return state
def __setstate__(self, state):
    for key, value in state.items():
        if key == "rng":
            rng = np.random.default_rng()
            rng.bit_generator.state = value
            value = rng
        object.__setattr__(self, key, value)
```
so the pickled form carries the plain fields plus the bit-generator state
of each owned generator (children are pickled recursively by the pickle
protocol), and unpickling allocates fresh generator objects carrying the
stored states. -/

mutual
inductive PertState where
  | rattleS (sigma : ℚ) (createSupercells : Bool) (rngState : List ℚ)
  | elementScaledRattleS (sigma : ℚ) (reference : List (String × ℚ))
      (createSupercells : Bool) (rngState : List ℚ)
  | stretchS (hydro shear minimumStrain : ℚ) (rngState : List ℚ)
  | seriesS (perturbations : PertStateSeq)
  | randomChoiceS (choiceA choiceB : PertState) (chance : ℚ) (rngState : List ℚ)

inductive PertStateSeq where
  | nil
  | cons (head : PertState) (tail : PertStateSeq)
end

mutual
/-- The pickled form of a perturbation: `__getstate__`, applied recursively
to composite children. -/
def Pert.pickle : Pert → PertState
  | .rattleP sigma cs g => .rattleS sigma cs g.state
  | .elementScaledRattleP sigma ref cs g => .elementScaledRattleS sigma ref cs g.state
  | .stretchP hydro shear ms g => .stretchS hydro shear ms g.state
  | .seriesP ps => .seriesS (PertSeq.pickleSeq ps)
  | .randomChoiceP a b chance g =>
      .randomChoiceS (Pert.pickle a) (Pert.pickle b) chance g.state

def PertSeq.pickleSeq : PertSeq → PertStateSeq
  | .nil => .nil
  | .cons p ps => .cons (Pert.pickle p) (PertSeq.pickleSeq ps)
end

mutual
/-- `__setstate__`, applied recursively: rebuilds the object, allocating a
fresh generator object (`np.random.default_rng()`) for every stored
bit-generator state and restoring that state onto it.  The `Nat` argument
threads the allocation counter for generator object identities. -/
def PertState.unpickle : PertState → Nat → Pert × Nat
  | .rattleS sigma cs st, n => (.rattleP sigma cs ⟨n, st⟩, n + 1)
  | .elementScaledRattleS sigma ref cs st, n =>
      (.elementScaledRattleP sigma ref cs ⟨n, st⟩, n + 1)
  | .stretchS hydro shear ms st, n => (.stretchP hydro shear ms ⟨n, st⟩, n + 1)
  | .seriesS ps, n =>
      let r := PertStateSeq.unpickleSeq ps n
      (.seriesP r.1, r.2)
  | .randomChoiceS a b chance st, n =>
      let ra := PertState.unpickle a n
      let rb := PertState.unpickle b ra.2
      (.randomChoiceP ra.1 rb.1 chance ⟨rb.2, st⟩, rb.2 + 1)

def PertStateSeq.unpickleSeq : PertStateSeq → Nat → PertSeq × Nat
  | .nil, n => (.nil, n)
  | .cons p ps, n =>
      let r := PertState.unpickle p n
      let rs := PertStateSeq.unpickleSeq ps r.2
      (.cons r.1 rs.1, rs.2)
end

mutual
/-- Erase generator object identities (not part of any observable output of
`__call__`); used to state that behaviour depends only on the pickled
content. -/
def Pert.stripRefs : Pert → Pert
  | .rattleP sigma cs g => .rattleP sigma cs ⟨0, g.state⟩
  | .elementScaledRattleP sigma ref cs g => .elementScaledRattleP sigma ref cs ⟨0, g.state⟩
  | .stretchP hydro shear ms g => .stretchP hydro shear ms ⟨0, g.state⟩
  | .seriesP ps => .seriesP (PertSeq.stripRefsSeq ps)
  | .randomChoiceP a b chance g =>
      .randomChoiceP (Pert.stripRefs a) (Pert.stripRefs b) chance ⟨0, g.state⟩

def PertSeq.stripRefsSeq : PertSeq → PertSeq
  | .nil => .nil
  | .cons p ps => .cons (Pert.stripRefs p) (PertSeq.stripRefsSeq ps)
end

mutual
/-- Python `==` between two perturbation instances: the dataclass-generated
`__eq__` compares every field, including `rng`; numpy generators carry no
`__eq__`, so that comparison is object identity (`ref`). -/
def Pert.pyEq : Pert → Pert → Bool
  | .rattleP s c g, .rattleP s2 c2 g2 => s == s2 && c == c2 && g.ref == g2.ref
  | .elementScaledRattleP s r c g, .elementScaledRattleP s2 r2 c2 g2 =>
      s == s2 && r == r2 && c == c2 && g.ref == g2.ref
  | .stretchP h sh m g, .stretchP h2 sh2 m2 g2 =>
      h == h2 && sh == sh2 && m == m2 && g.ref == g2.ref
  | .seriesP ps, .seriesP qs => PertSeq.pyEqSeq ps qs
  | .randomChoiceP a b ch g, .randomChoiceP a2 b2 ch2 g2 =>
      Pert.pyEq a a2 && Pert.pyEq b b2 && ch == ch2 && g.ref == g2.ref
  | _, _ => false

def PertSeq.pyEqSeq : PertSeq → PertSeq → Bool
  | .nil, .nil => true
  | .cons p ps, .cons q qs => Pert.pyEq p q && PertSeq.pyEqSeq ps qs
  | _, _ => false
end

/-- The constructor `Rattle(sigma, create_supercells, rng=seed)`:
`__post_init__` replaces the `rng` field by `np.random.default_rng(rng)`,
allocating a fresh generator object. -/
def mkRattle (sigma : ℚ) (cs : Bool) (seedState : List ℚ) (c : Nat) : Pert × Nat :=
  let r := defaultRng seedState c
  (.rattleP sigma cs r.1, r.2)

/-! ## `assyst/perturbations.py` : `apply_perturbations`

```
for structure in structures:
    for mod in perturbations:
        try:
            for _ in range(retries):
                m = mod(structure.copy())
                if all(f(m) for f in filters):
                    yield m
                    break
        except ValueError:
            continue
```

The driver accepts arbitrary callables for `mod` and `f` (the tests of the
repository drive it with mocks), so it is embedded generically: a perturbation
is any stateful procedure `σ → Atoms → (Except String Atoms) × σ` (with
`Except.error` standing for a raised `ValueError`), and a filter is any
stateful predicate `φ → Atoms → Bool × φ`.  Each perturbation owns its own
state slot; the filter state is threaded through the whole run.  Copying
(`structure.copy()`) is the identity on immutable model values. -/

/-- `all(f(m) for f in filters)` — short-circuiting conjunction, threading
the filter state. -/
def runFilters {φ : Type} (filts : List (φ → Atoms → Bool × φ)) (fst : φ) (m : Atoms) :
    Bool × φ :=
  match filts with
  | [] => (true, fst)
  | f :: rest =>
      let r := f fst m
      if r.1 then runFilters rest r.2 m else (false, r.2)

/-- The `try: for _ in range(retries): ... except ValueError: continue` body
for one (structure, perturbation) pair: on a raised error all remaining
retries are abandoned (and the filters are not consulted for that attempt);
on a filter pass the single result is yielded and the loop breaks. -/
def pairAttempts {σ φ : Type} (pert : σ → Atoms → (Except String Atoms) × σ)
    (filts : List (φ → Atoms → Bool × φ)) (s : Atoms) :
    Nat → σ → φ → List Atoms × σ × φ
  | 0, ps, fst => ([], ps, fst)
  | n + 1, ps, fst =>
      match pert ps s with
      | (.error _, ps2) => ([], ps2, fst)
      | (.ok m, ps2) =>
          let r := runFilters filts fst m
          if r.1 then ([m], ps2, r.2)
          else pairAttempts pert filts s n ps2 r.2

/-- The inner `for mod in perturbations` loop for one structure; each
perturbation entry is the procedure paired with its current state. -/
def perturbStructure {σ φ : Type} (filts : List (φ → Atoms → Bool × φ))
    (retries : Nat) (s : Atoms) :
    List ((σ → Atoms → (Except String Atoms) × σ) × σ) → φ →
    List Atoms × List ((σ → Atoms → (Except String Atoms) × σ) × σ) × φ
  | [], fst => ([], [], fst)
  | e :: rest, fst =>
      let r1 := pairAttempts e.1 filts s retries e.2 fst
      let r2 := perturbStructure filts retries s rest r1.2.2
      (r1.1 ++ r2.1, (e.1, r1.2.1) :: r2.2.1, r2.2.2)

/-- `apply_perturbations(structures, perturbations, filters, retries)`:
yields, in input order, every perturbed structure that passes all filters.
Also returns the final perturbation and filter states. -/
def applyPerturbations {σ φ : Type} (structures : List Atoms)
    (perts : List ((σ → Atoms → (Except String Atoms) × σ) × σ))
    (filts : List (φ → Atoms → Bool × φ)) (fst : φ) (retries : Nat) :
    List Atoms × List ((σ → Atoms → (Except String Atoms) × σ) × σ) × φ :=
  match structures with
  | [] => ([], perts, fst)
  | s :: ss =>
      let r1 := perturbStructure filts retries s perts fst
      let r2 := applyPerturbations ss r1.2.1 filts r1.2.2 retries
      (r1.1 ++ r2.1, r2.2.1, r2.2.2)

/-- The same run, but keeping the yields of each (structure, perturbation)
pair as a separate list, enumerated in structure-major, perturbation-minor
order.  Used to state the output-ordering guarantee. -/
def perturbStructurePairs {σ φ : Type} (filts : List (φ → Atoms → Bool × φ))
    (retries : Nat) (s : Atoms) :
    List ((σ → Atoms → (Except String Atoms) × σ) × σ) → φ →
    List (List Atoms) × List ((σ → Atoms → (Except String Atoms) × σ) × σ) × φ
  | [], fst => ([], [], fst)
  | e :: rest, fst =>
      let r1 := pairAttempts e.1 filts s retries e.2 fst
      let r2 := perturbStructurePairs filts retries s rest r1.2.2
      (r1.1 :: r2.1, (e.1, r1.2.1) :: r2.2.1, r2.2.2)

/-- Pair-indexed view of `applyPerturbations`. -/
def applyPerturbationsPairs {σ φ : Type} (structures : List Atoms)
    (perts : List ((σ → Atoms → (Except String Atoms) × σ) × σ))
    (filts : List (φ → Atoms → Bool × φ)) (fst : φ) (retries : Nat) :
    List (List Atoms) × List ((σ → Atoms → (Except String Atoms) × σ) × σ) × φ :=
  match structures with
  | [] => ([], perts, fst)
  | s :: ss =>
      let r1 := perturbStructurePairs filts retries s perts fst
      let r2 := applyPerturbationsPairs ss r1.2.1 filts r1.2.2 retries
      (r1.1 ++ r2.1, r2.2.1, r2.2.2)

/-! ## Lemmas: serialization round trip -/

/-- The own `rng` field state of an instance (`self.rng.bit_generator.state`);
`Series` owns no generator. -/
def Pert.ownState : Pert → Option RngState
  | .rattleP _ _ g => some g.state
  | .elementScaledRattleP _ _ _ g => some g.state
  | .stretchP _ _ _ g => some g.state
  | .seriesP _ => none
  | .randomChoiceP _ _ _ g => some g.state

mutual
theorem pickle_unpickle : ∀ (st : PertState) (c : Nat),
    Pert.pickle ((PertState.unpickle st c).1) = st
  | .rattleS _ _ _, _ => rfl
  | .elementScaledRattleS _ _ _ _, _ => rfl
  | .stretchS _ _ _ _, _ => rfl
  | .seriesS ps, c => by
      simp [PertState.unpickle, Pert.pickle, pickleSeq_unpickleSeq ps c]
  | .randomChoiceS a b ch rst, c => by
      simp [PertState.unpickle, Pert.pickle, pickle_unpickle a c,
        pickle_unpickle b ((PertState.unpickle a c).2)]

theorem pickleSeq_unpickleSeq : ∀ (ps : PertStateSeq) (c : Nat),
    PertSeq.pickleSeq ((PertStateSeq.unpickleSeq ps c).1) = ps
  | .nil, _ => rfl
  | .cons p ps, c => by
      simp [PertStateSeq.unpickleSeq, PertSeq.pickleSeq, pickle_unpickle p c,
        pickleSeq_unpickleSeq ps ((PertState.unpickle p c).2)]
end

mutual
theorem stripRefs_unpickle_pickle : ∀ (p : Pert) (c : Nat),
    Pert.stripRefs ((PertState.unpickle (Pert.pickle p) c).1) = Pert.stripRefs p
  | .rattleP _ _ _, _ => rfl
  | .elementScaledRattleP _ _ _ _, _ => rfl
  | .stretchP _ _ _ _, _ => rfl
  | .seriesP ps, c => by
      simp [PertState.unpickle, Pert.pickle, Pert.stripRefs,
        stripSeq_unpickleSeq_pickleSeq ps c]
  | .randomChoiceP a b ch g, c => by
      simp [PertState.unpickle, Pert.pickle, Pert.stripRefs,
        stripRefs_unpickle_pickle a c,
        stripRefs_unpickle_pickle b ((PertState.unpickle (Pert.pickle a) c).2)]

theorem stripSeq_unpickleSeq_pickleSeq : ∀ (ps : PertSeq) (c : Nat),
    PertSeq.stripRefsSeq ((PertStateSeq.unpickleSeq (PertSeq.pickleSeq ps) c).1)
      = PertSeq.stripRefsSeq ps
  | .nil, _ => rfl
  | .cons p ps, c => by
      simp [PertStateSeq.unpickleSeq, PertSeq.pickleSeq, PertSeq.stripRefsSeq,
        stripRefs_unpickle_pickle p c,
        stripSeq_unpickleSeq_pickleSeq ps ((PertState.unpickle (Pert.pickle p) c).2)]
end

mutual
theorem call_stripRefs : ∀ (p : Pert) (a : Atoms),
    Pert.call (Pert.stripRefs p) a
      = ((Pert.call p a).1, Pert.stripRefs ((Pert.call p a).2))
  | .rattleP _ _ _, _ => rfl
  | .elementScaledRattleP _ _ _ _, _ => rfl
  | .stretchP _ _ _ _, _ => rfl
  | .seriesP ps, a => by
      simp [Pert.call, Pert.stripRefs, callSeq_stripRefs ps a]
  | .randomChoiceP ca cb ch g, a => by
      simp only [Pert.call, Pert.stripRefs]
      by_cases h : ch < (stateNext g.state).1
      · simp [h, call_stripRefs ca a, Pert.stripRefs]
      · simp [h, call_stripRefs cb a, Pert.stripRefs]

theorem callSeq_stripRefs : ∀ (ps : PertSeq) (a : Atoms),
    PertSeq.callSeq (PertSeq.stripRefsSeq ps) a
      = ((PertSeq.callSeq ps a).1, PertSeq.stripRefsSeq ((PertSeq.callSeq ps a).2))
  | .nil, _ => rfl
  | .cons p ps, a => by
      simp only [PertSeq.stripRefsSeq, PertSeq.callSeq, call_stripRefs p a]
      cases h : Pert.call p a with
      | mk r p2 =>
        cases r with
        | error e => simp [Pert.stripRefs, PertSeq.stripRefsSeq]
        | ok a2 => simp [PertSeq.stripRefsSeq, callSeq_stripRefs ps a2]
end

theorem ownState_stripRefs (p : Pert) : Pert.ownState (Pert.stripRefs p) = Pert.ownState p := by
  cases p <;> rfl

/-- **C1**: For every stateful perturbation (Rattle, ElementScaledRattle,
Stretch, RandomChoice — and Series of such), serializing (`__getstate__`)
captures the exact internal state of its owned generator(s) and
deserializing (`__setstate__`) restores it: the round-tripped instance has
the same pickled content and the same own-generator state (so its very
next draw is the next draw of the original), and its next call on any input
structure produces exactly the output the original instance would have
produced next, advancing to the same subsequent state (up to generator
object identities).  Serialization is a checkpoint, not a reset. -/
theorem perturbation_pickle_checkpoint (p : Pert) (a : Atoms) (c : Nat) :
    Pert.pickle ((PertState.unpickle (Pert.pickle p) c).1) = Pert.pickle p
    ∧ Pert.ownState ((PertState.unpickle (Pert.pickle p) c).1) = Pert.ownState p
    ∧ (Pert.call ((PertState.unpickle (Pert.pickle p) c).1) a).1 = (Pert.call p a).1
    ∧ Pert.stripRefs ((Pert.call ((PertState.unpickle (Pert.pickle p) c).1) a).2)
        = Pert.stripRefs ((Pert.call p a).2) := by
  have hq : Pert.stripRefs ((PertState.unpickle (Pert.pickle p) c).1) = Pert.stripRefs p :=
    stripRefs_unpickle_pickle p c
  have h1 := call_stripRefs ((PertState.unpickle (Pert.pickle p) c).1) a
  have h2 := call_stripRefs p a
  rw [hq] at h1
  have h3 := h1.symm.trans h2
  simp only [Prod.mk.injEq] at h3
  refine ⟨pickle_unpickle (Pert.pickle p) c, ?_, h3.1, h3.2⟩
  rw [← ownState_stripRefs, hq, ownState_stripRefs]

/-! ## Concrete example data -/

/-- A two-atom example structure for concrete evaluations. -/
def twoAtoms : Atoms :=
  { symbols := ["H", "H"]
    positions := [[0, 0, 0], [1, 1, 1]]
    cell := [[1, 0, 0], [0, 1, 0], [0, 0, 1]]
    info := {} }

/-- A single-atom example structure for concrete evaluations. -/
def oneAtom : Atoms :=
  { symbols := ["H"]
    positions := [[0, 0, 0]]
    cell := [[1, 0, 0], [0, 1, 0], [0, 0, 1]]
    info := {} }

/-- **C5 counterexample**: the claim says two Rattle instances constructed
with the same sigma compare equal and that pickling round-trips to an equal
object.  In the code `Rattle` is a frozen dataclass whose generated `__eq__`
compares the `rng` field as well, and numpy generators compare by object
identity — so two independently constructed `Rattle(1)` instances are NOT
equal, and the unpickled copy (with its freshly allocated generator) is NOT
equal to the original either. -/
theorem perturbation_equality_cex :
    Pert.pyEq (mkRattle 1 false [] 0).1 (mkRattle 1 false [] (mkRattle 1 false [] 0).2).1
      = false
    ∧ Pert.pyEq (mkRattle 1 false [] 0).1
        ((PertState.unpickle (Pert.pickle (mkRattle 1 false [] 0).1) 5).1) = false := by
  decide

/-- **C5 (amended)**: dataclass equality between perturbation instances
compares all fields including the `rng` generator object (identity
comparison): two independently constructed Rattles with the same sigma are
never `==` (regardless of generator state), while their structural content
(the pickled form, i.e. everything except generator identity) is identical;
`==` does hold when the very generator object is shared; and pickling
round-trips the full pickled content but yields an object that is not `==`
to the original. -/
theorem perturbation_equality_semantics (sigma : ℚ) (cs : Bool) (st : RngState)
    (c c2 : Nat) (p : Pert) (g : Generator) :
    Pert.pyEq (mkRattle sigma cs st c).1 (mkRattle sigma cs st (mkRattle sigma cs st c).2).1
      = false
    ∧ Pert.pickle (mkRattle sigma cs st c).1
        = Pert.pickle (mkRattle sigma cs st (mkRattle sigma cs st c).2).1
    ∧ Pert.pyEq (.rattleP sigma cs g) (.rattleP sigma cs g) = true
    ∧ Pert.pickle ((PertState.unpickle (Pert.pickle p) c2).1) = Pert.pickle p
    ∧ (c2 ≠ g.ref → Pert.pyEq (.rattleP sigma cs g)
        ((PertState.unpickle (Pert.pickle (.rattleP sigma cs g)) c2).1) = false) := by
  refine ⟨?_, rfl, ?_, pickle_unpickle (Pert.pickle p) c2, ?_⟩
  · simp [Pert.pyEq, mkRattle, defaultRng]
  · simp [Pert.pyEq]
  · intro h
    simp [Pert.pyEq, PertState.unpickle, Pert.pickle, Ne.symm h]

/-- Witness for `perturbation_equality_semantics` at concrete inputs. -/
theorem perturbation_equality_semantics_witness :
    (1 : Nat) ≠ 0
    ∧ Pert.pyEq (.rattleP 1 false ⟨0, []⟩)
        ((PertState.unpickle (Pert.pickle (.rattleP 1 false ⟨0, []⟩)) 1).1) = false :=
  ⟨by decide,
    (perturbation_equality_semantics 1 false [] 0 1 (.rattleP 1 false ⟨0, []⟩)
      ⟨0, []⟩).2.2.2.2 (by decide)⟩

deriving instance DecidableEq for Except

/-- The `perturbation` metadata tag of a call result (`None` on error). -/
def resultTag : Except String Atoms → Option String
  | .ok m => m.info.perturbation
  | .error _ => none

/-- **C7 counterexample**: the claim says `RandomChoice` applies `choice_b`
iff the draw is `< chance` (and `choice_a` otherwise).  The code tests
`draw > chance` for `choice_a`, so at `draw = chance` it applies
`choice_b`, where the claim prescribes `choice_a`: with `chance = 0` and
the next own-generator draw exactly `0` (a value `random()` can return),
the result is the output of `choice_b`, which differs from the output of
`choice_a` — even though the claim implies `chance = 0` never applies
`choice_b`. -/
theorem random_choice_boundary_cex :
    ¬ ((0 : ℚ) < 0)
    ∧ (Pert.call (.randomChoiceP (.rattleP 1 false ⟨1, [1,1,1,1,1,1]⟩)
          (.rattleP 2 false ⟨2, [1,1,1,1,1,1]⟩) 0 ⟨3, [0]⟩) twoAtoms).1
        = (Pert.call (.rattleP 2 false ⟨2, [1,1,1,1,1,1]⟩) twoAtoms).1
    ∧ resultTag (Pert.call (.randomChoiceP (.rattleP 1 false ⟨1, [1,1,1,1,1,1]⟩)
          (.rattleP 2 false ⟨2, [1,1,1,1,1,1]⟩) 0 ⟨3, [0]⟩) twoAtoms).1
        = some (rattleStr 2)
    ∧ resultTag (Pert.call (.rattleP 1 false ⟨1, [1,1,1,1,1,1]⟩) twoAtoms).1
        = some (rattleStr 1)
    ∧ rattleStr 2 ≠ rattleStr 1 := by
  refine ⟨by norm_num, rfl, rfl, rfl, by decide⟩

/-- **C7 (amended)**: `RandomChoice.__call__` draws exactly one value from
its own generator (the own state advances by one; neither child is touched
by the decision) and applies `choice_a` when the draw is strictly greater
than `chance`, otherwise (draw ≤ chance, including equality) `choice_b`:
the parameter `chance` is the probability of applying the second argument
for a continuous draw. -/
theorem random_choice_polarity (ca cb : Pert) (chance : ℚ) (g : Generator) (a : Atoms) :
    (chance < (stateNext g.state).1 →
      Pert.call (.randomChoiceP ca cb chance g) a
        = ((Pert.call ca a).1,
            .randomChoiceP (Pert.call ca a).2 cb chance ⟨g.ref, g.state.tail⟩))
    ∧ ((stateNext g.state).1 ≤ chance →
      Pert.call (.randomChoiceP ca cb chance g) a
        = ((Pert.call cb a).1,
            .randomChoiceP ca (Pert.call cb a).2 chance ⟨g.ref, g.state.tail⟩)) := by
  constructor
  · intro h
    simp only [Pert.call]
    rw [if_pos h]
    rfl
  · intro h
    simp only [Pert.call]
    rw [if_neg (not_lt.mpr h)]
    rfl

/-- Witness for `random_choice_polarity` at concrete inputs, exercising
both branches. -/
theorem random_choice_polarity_witness :
    (Pert.call (.randomChoiceP (.rattleP 1 false ⟨1, []⟩) (.rattleP 2 false ⟨2, []⟩)
        0 ⟨3, [1]⟩) twoAtoms
      = ((Pert.call (.rattleP 1 false ⟨1, []⟩) twoAtoms).1,
          .randomChoiceP (Pert.call (.rattleP 1 false ⟨1, []⟩) twoAtoms).2
            (.rattleP 2 false ⟨2, []⟩) 0 ⟨3, ([1] : List ℚ).tail⟩))
    ∧ (Pert.call (.randomChoiceP (.rattleP 1 false ⟨1, []⟩) (.rattleP 2 false ⟨2, []⟩)
        1 ⟨3, [1]⟩) twoAtoms
      = ((Pert.call (.rattleP 2 false ⟨2, []⟩) twoAtoms).1,
          .randomChoiceP (.rattleP 1 false ⟨1, []⟩)
            (Pert.call (.rattleP 2 false ⟨2, []⟩) twoAtoms).2 1 ⟨3, ([1] : List ℚ).tail⟩)) :=
  ⟨(random_choice_polarity (.rattleP 1 false ⟨1, []⟩) (.rattleP 2 false ⟨2, []⟩)
      0 ⟨3, [1]⟩ twoAtoms).1 (by decide),
    (random_choice_polarity (.rattleP 1 false ⟨1, []⟩) (.rattleP 2 false ⟨2, []⟩)
      1 ⟨3, [1]⟩ twoAtoms).2 (by decide)⟩

theorem applyTag_ne (t : Option String) (n : String) : applyTag t n ≠ t := by
  cases t with
  | none => simp [applyTag]
  | some s =>
      simp only [applyTag, ne_eq, Option.some.injEq]
      intro h
      have hl := congrArg String.length h
      have hp : ("+" : String).length = 1 := rfl
      simp [String.length_append, hp] at hl
      omega

/-- **C10**: `Rattle` with `create_supercells = False` called on a
single-atom structure raises `ValueError`, but only after
`super().__call__` has already mutated the `perturbation` metadata tag of
the structure passed by the caller, in place: the failing call is not atomic —
the object passed in is left with an updated tag. -/
theorem rattle_single_atom_inplace_tag (sigma : ℚ) (st : RngState) (a : Atoms)
    (h : a.positions.length = 1) :
    (rattleCallCore sigma false st a).1
      = .error "Can only rattle structures larger than one atom."
    ∧ (rattleCallCore sigma false st a).2.1.info.perturbation
        = applyTag a.info.perturbation (rattleStr sigma)
    ∧ (rattleCallCore sigma false st a).2.1.info.perturbation ≠ a.info.perturbation := by
  simp [rattleCallCore, rattleFn, rattleVecFn, tagPerturbation, h, applyTag_ne]

/-- Witness for `rattle_single_atom_inplace_tag` on a concrete single-atom
structure. -/
theorem rattle_single_atom_inplace_tag_witness :
    oneAtom.positions.length = 1
    ∧ ((rattleCallCore 1 false [] oneAtom).1
        = .error "Can only rattle structures larger than one atom."
      ∧ (rattleCallCore 1 false [] oneAtom).2.1.info.perturbation
          = applyTag oneAtom.info.perturbation (rattleStr 1)
      ∧ (rattleCallCore 1 false [] oneAtom).2.1.info.perturbation
          ≠ oneAtom.info.perturbation) :=
  ⟨rfl, rattle_single_atom_inplace_tag 1 [] oneAtom rfl⟩

/-! ## Lemmas: perturbation tagging -/

theorem applyTag_assoc (t : Option String) (n1 n2 : String) :
    applyTag (applyTag t n1) n2 = applyTag t (n1 ++ "+" ++ n2) := by
  cases t <;> simp [applyTag, String.append_assoc]

/-- The three leaf perturbation classes (the ones whose `__call__` invokes
`super().__call__` directly). -/
def Pert.isLeafClass : Pert → Bool
  | .rattleP _ _ _ => true
  | .elementScaledRattleP _ _ _ _ => true
  | .stretchP _ _ _ _ => true
  | _ => false

/-- All members of a series are leaf classes. -/
def PertSeq.allLeaf : PertSeq → Bool
  | .nil => true
  | .cons p ps => p.isLeafClass && ps.allLeaf

theorem rattleFn_ok_info (a : Atoms) (sigma : ℚ) (st : RngState) (r : Atoms × RngState)
    (h : rattleFn a sigma st = .ok r) : r.1.info = a.info := by
  unfold rattleFn rattleVecFn at h
  split at h
  · cases h
  · simp only [Except.ok.injEq] at h
    rw [← h]

theorem elementScaledRattleFn_ok_info (a : Atoms) (sigma : ℚ)
    (reference : List (String × ℚ)) (st : RngState) (r : Atoms × RngState)
    (h : elementScaledRattleFn a sigma reference st = .ok r) : r.1.info = a.info := by
  unfold elementScaledRattleFn at h
  split at h
  · cases h
  · split at h
    · cases h
    · unfold rattleVecFn at h
      split at h
      · cases h
      · simp only [Except.ok.injEq] at h
        rw [← h]

theorem stretchFn_info (a : Atoms) (hydro shear ms : ℚ) (st : RngState) :
    (stretchFn a hydro shear ms st).1.info = a.info := rfl

theorem rattleCallCore_ok_tag (sigma : ℚ) (cs : Bool) (st : RngState) (a m : Atoms)
    (h : (rattleCallCore sigma cs st a).1 = .ok m) :
    m.info.perturbation = applyTag a.info.perturbation (rattleStr sigma) := by
  simp only [rattleCallCore] at h
  cases hr : rattleFn (tagPerturbation (if cs = true ∧ a.positions.length = 1 then repeat2 a
      else a) (rattleStr sigma)) sigma st with
  | error e => rw [hr] at h; cases h
  | ok r =>
      rw [hr] at h
      simp only [Except.ok.injEq] at h
      rw [← h]
      have h2 := rattleFn_ok_info _ _ _ _ hr
      rw [h2]
      show applyTag (if cs = true ∧ a.positions.length = 1 then repeat2 a
          else a).info.perturbation (rattleStr sigma) = _
      split <;> rfl

theorem elementScaledRattleCallCore_ok_tag (sigma : ℚ) (reference : List (String × ℚ))
    (cs : Bool) (st : RngState) (a m : Atoms)
    (h : (elementScaledRattleCallCore sigma reference cs st a).1 = .ok m) :
    m.info.perturbation = applyTag a.info.perturbation (scaledRattleStr sigma) := by
  simp only [elementScaledRattleCallCore] at h
  cases hr : elementScaledRattleFn (tagPerturbation
      (if cs = true ∧ a.positions.length = 1 then repeat2 a else a) (scaledRattleStr sigma))
      sigma reference st with
  | error e => rw [hr] at h; cases h
  | ok r =>
      rw [hr] at h
      simp only [Except.ok.injEq] at h
      rw [← h]
      have h2 := elementScaledRattleFn_ok_info _ _ _ _ _ hr
      rw [h2]
      show applyTag (if cs = true ∧ a.positions.length = 1 then repeat2 a
          else a).info.perturbation (scaledRattleStr sigma) = _
      split <;> rfl

theorem leaf_call_ok_tag (p : Pert) (a m : Atoms) (hp : p.isLeafClass = true)
    (h : (Pert.call p a).1 = .ok m) :
    m.info.perturbation = applyTag a.info.perturbation (Pert.str p) := by
  cases p with
  | rattleP sigma cs g =>
      simp only [Pert.str]
      exact rattleCallCore_ok_tag sigma cs g.state a m h
  | elementScaledRattleP sigma reference cs g =>
      simp only [Pert.str]
      exact elementScaledRattleCallCore_ok_tag sigma reference cs g.state a m h
  | stretchP hydro shear ms g =>
      simp only [Pert.call, Except.ok.injEq] at h
      rw [← h]
      simp only [Pert.str]
      rfl
  | seriesP ps => cases hp
  | randomChoiceP ca cb ch g => cases hp

/-- Net tag of a nonempty series of leaf-class members: member-by-member
tagging amounts to appending the `+`-joined identity string once. -/
theorem series_net_tag : ∀ (ps : PertSeq) (p0 : Pert) (a m : Atoms),
    (p0.isLeafClass && ps.allLeaf) = true →
    (PertSeq.callSeq (.cons p0 ps) a).1 = .ok m →
    m.info.perturbation = applyTag a.info.perturbation (PertSeq.strJoin (.cons p0 ps))
  | .nil, p0, a, m, hl, h => by
      simp only [Bool.and_true, PertSeq.allLeaf] at hl
      simp only [PertSeq.callSeq] at h
      cases hc : Pert.call p0 a with
      | mk r p2 =>
          rw [hc] at h
          cases r with
          | error e => cases h
          | ok a2 =>
              simp only [PertSeq.callSeq, Except.ok.injEq] at h
              rw [← h]
              simp only [PertSeq.strJoin]
              exact leaf_call_ok_tag p0 a a2 hl (by rw [hc])
  | .cons p1 ps1, p0, a, m, hl, h => by
      simp only [PertSeq.allLeaf, Bool.and_eq_true] at hl
      simp only [PertSeq.callSeq] at h
      cases hc : Pert.call p0 a with
      | mk r p2 =>
          rw [hc] at h
          cases r with
          | error e => cases h
          | ok a2 =>
              simp only at h
              have h2 := series_net_tag ps1 p1 a2 m
                (by simp [hl.2.1, hl.2.2]) h
              have h3 := leaf_call_ok_tag p0 a a2 hl.1 (by rw [hc])
              rw [h2, h3, applyTag_assoc]
              simp only [PertSeq.strJoin]

/-- **C8 counterexample**: the claim says every class-based perturbation,
`RandomChoice` included, updates the `perturbation` tag with
`"+" + str(self)`.  `RandomChoice.__call__` never calls the tag update on
its own behalf: invoking the concrete choice below on an untagged structure
leaves the tag of the chosen branch (`rattle(2)`), not
`str(self) = "rattle(1)|rattle(2)"`. -/
theorem random_choice_tagging_cex :
    resultTag (Pert.call (.randomChoiceP (.rattleP 1 false ⟨1, [1,1,1,1,1,1]⟩)
        (.rattleP 2 false ⟨2, [1,1,1,1,1,1]⟩) 0 ⟨3, [0]⟩) twoAtoms).1 = some (rattleStr 2)
    ∧ applyTag twoAtoms.info.perturbation
        (Pert.str (.randomChoiceP (.rattleP 1 false ⟨1, [1,1,1,1,1,1]⟩)
          (.rattleP 2 false ⟨2, [1,1,1,1,1,1]⟩) 0 ⟨3, [0]⟩))
        = some (rattleStr 1 ++ "|" ++ rattleStr 2)
    ∧ some (rattleStr 2) ≠ some (rattleStr 1 ++ "|" ++ rattleStr 2) := by
  refine ⟨by simp only [Pert.call]; rfl, ?_, by decide⟩
  simp [Pert.str, applyTag, twoAtoms]

/-- **C8 (amended)**: `Rattle`, `ElementScaledRattle` and `Stretch` update
the `perturbation` tag of the structure by appending `"+" + str(self)` (setting
it when absent).  `Series` performs no tag update of its own — it applies
its members in order, and for a nonempty series of class-based members the
own updates of the members amount to appending `"+" + str(self)` once.
`RandomChoice` performs no tag update of its own either: its result is
exactly the result of the chosen branch.  The raw in-place helper functions
(`rattle`, `element_scaled_rattle`, `stretch`) never touch the metadata. -/
theorem perturbation_tagging_semantics :
    (∀ (p : Pert) (a m : Atoms), p.isLeafClass = true → (Pert.call p a).1 = .ok m →
        m.info.perturbation = applyTag a.info.perturbation (Pert.str p))
    ∧ (∀ (ps : PertSeq) (a : Atoms), Pert.call (.seriesP ps) a
          = ((PertSeq.callSeq ps a).1, .seriesP (PertSeq.callSeq ps a).2))
    ∧ (∀ (p0 : Pert) (ps : PertSeq) (a m : Atoms),
        (p0.isLeafClass && ps.allLeaf) = true →
        (Pert.call (.seriesP (.cons p0 ps)) a).1 = .ok m →
        m.info.perturbation = applyTag a.info.perturbation (Pert.str (.seriesP (.cons p0 ps))))
    ∧ (∀ (ca cb : Pert) (ch : ℚ) (g : Generator) (a : Atoms),
        (Pert.call (.randomChoiceP ca cb ch g) a).1
          = if ch < (stateNext g.state).1 then (Pert.call ca a).1 else (Pert.call cb a).1)
    ∧ (∀ (a : Atoms) (sigma : ℚ) (st : RngState) (r : Atoms × RngState),
        rattleFn a sigma st = .ok r → r.1.info = a.info)
    ∧ (∀ (a : Atoms) (sigma : ℚ) (reference : List (String × ℚ)) (st : RngState)
        (r : Atoms × RngState),
        elementScaledRattleFn a sigma reference st = .ok r → r.1.info = a.info)
    ∧ (∀ (a : Atoms) (hydro shear ms : ℚ) (st : RngState),
        (stretchFn a hydro shear ms st).1.info = a.info) := by
  refine ⟨fun p a m hp h => leaf_call_ok_tag p a m hp h, ?_, ?_, ?_,
    fun a sigma st r h => rattleFn_ok_info a sigma st r h,
    fun a sigma reference st r h => elementScaledRattleFn_ok_info a sigma reference st r h,
    fun a hydro shear ms st => stretchFn_info a hydro shear ms st⟩
  · intro ps a
    simp [Pert.call]
  · intro p0 ps a m hl h
    simp only [Pert.call] at h
    have := series_net_tag ps p0 a m hl h
    rw [this]
    simp [Pert.str]
  · intro ca cb ch g a
    simp only [Pert.call]
    split <;> rfl

/-- The structure the witness call produces, extracted from the result. -/
def taggingWitnessResult : Atoms :=
  match (rattleCallCore 0 false [1,1,1,1,1,1] twoAtoms).1 with
  | .ok m => m
  | .error _ => twoAtoms

/-- Witness for `perturbation_tagging_semantics`: a concrete successful
`Rattle` call whose output tag is the appended identity string, and a
concrete raw `rattle` call that leaves the metadata untouched. -/
theorem perturbation_tagging_semantics_witness :
    (Pert.rattleP 0 false ⟨1, [1,1,1,1,1,1]⟩).isLeafClass = true
    ∧ (Pert.call (.rattleP 0 false ⟨1, [1,1,1,1,1,1]⟩) twoAtoms).1 = .ok taggingWitnessResult
    ∧ taggingWitnessResult.info.perturbation
        = applyTag twoAtoms.info.perturbation (Pert.str (.rattleP 0 false ⟨1, [1,1,1,1,1,1]⟩)) := by
  have hEq : (Pert.call (.rattleP 0 false ⟨1, [1,1,1,1,1,1]⟩) twoAtoms).1
      = .ok taggingWitnessResult := by
    simp only [Pert.call]
    rfl
  exact ⟨rfl, hEq, perturbation_tagging_semantics.1 _ twoAtoms _ rfl hEq⟩

/-! ## Lemmas: heap reads under extension -/

theorem getD_append_lt {α : Type} (l l2 : List α) (i : Nat) (d : α) (h : i < l.length) :
    (l ++ l2).getD i d = l.getD i d := by
  simp [List.getD, List.getElem?_append, h]

theorem getD_append_length {α : Type} (l : List α) (x : α) (d : α) :
    (l ++ [x]).getD l.length d = x := by
  simp [List.getD, List.getElem?_append_right (le_refl l.length)]

theorem deref_append_valid (h : Heap) (l : List String) (p : Option Nat)
    (hv : ∀ i, p = some i → i < h.length) :
    Heap.deref (h ++ [l]) p = Heap.deref h p := by
  cases p with
  | none => rfl
  | some i =>
      simp only [Heap.deref]
      exact getD_append_lt h [l] i [] (hv i rfl)

/-- A structure carrying a uuid but no seed. -/
def uuidOnlyAtoms : Atoms :=
  { symbols := [], positions := [], cell := [], info := { uuid := some "x" } }

/-- **C3 counterexample**: on a structure that has a `uuid` but no `seed`,
`update_uuid` does not leave `seed` unchanged — it sets `seed` to the NEW
identifier (not even the old one), because the `if "seed" not in info`
check runs unconditionally after the uuid is replaced. -/
theorem update_uuid_seed_cex :
    uuidOnlyAtoms.info.uuid = some "x"
    ∧ uuidOnlyAtoms.info.seed = none
    ∧ (update_uuid uuidOnlyAtoms "y" []).1.info.seed = some "y"
    ∧ (update_uuid uuidOnlyAtoms "y" []).1.info.seed ≠ uuidOnlyAtoms.info.seed := by
  decide

/-- **C3 (amended)**: `update_uuid` on a structure with no `uuid` sets the
fresh identifier, sets `seed` to the same identifier only if no seed
exists, and touches neither the lineage pointer nor the heap.  On a
structure with `uuid = x` it allocates a NEW lineage list equal to the old
one (empty if none) with `x` appended — never writing to any existing heap
cell — assigns the fresh identifier, leaves an existing `seed` unchanged,
and (the corrected part) sets a missing `seed` to the fresh identifier.
Consequently two structures sharing one parent lineage list, each mutated
once, never see the entries appended by the other. -/
theorem update_uuid_lineage_spec :
    (∀ (a : Atoms) (fresh : String) (h : Heap), a.info.uuid = none →
        ((update_uuid a fresh h).1.info.uuid = some fresh
        ∧ (update_uuid a fresh h).1.info.lineage = a.info.lineage
        ∧ (update_uuid a fresh h).1.info.seed
            = (if a.info.seed = none then some fresh else a.info.seed)
        ∧ (update_uuid a fresh h).2 = h))
    ∧ (∀ (a : Atoms) (fresh : String) (h : Heap) (x : String), a.info.uuid = some x →
        ((update_uuid a fresh h).1.info.uuid = some fresh
        ∧ (update_uuid a fresh h).1.info.lineage = some h.length
        ∧ Heap.deref (update_uuid a fresh h).2 ((update_uuid a fresh h).1.info.lineage)
            = Heap.deref h a.info.lineage ++ [x]
        ∧ (a.info.seed ≠ none → (update_uuid a fresh h).1.info.seed = a.info.seed)
        ∧ (a.info.seed = none → (update_uuid a fresh h).1.info.seed = some fresh)
        ∧ (∀ i, i < h.length → (update_uuid a fresh h).2.getD i [] = h.getD i [])))
    ∧ (∀ (a1 a2 : Atoms) (h : Heap) (x1 x2 f1 f2 : String),
        a1.info.uuid = some x1 → a2.info.uuid = some x2 →
        a1.info.lineage = a2.info.lineage →
        (∀ i, a1.info.lineage = some i → i < h.length) →
        (Heap.deref (update_uuid a2 f2 (update_uuid a1 f1 h).2).2
            (update_uuid a1 f1 h).1.info.lineage
          = Heap.deref h a1.info.lineage ++ [x1]
        ∧ Heap.deref (update_uuid a2 f2 (update_uuid a1 f1 h).2).2
            (update_uuid a2 f2 (update_uuid a1 f1 h).2).1.info.lineage
          = Heap.deref h a1.info.lineage ++ [x2]
        ∧ (x2 ∉ Heap.deref h a1.info.lineage ++ [x1] →
            x2 ∉ Heap.deref (update_uuid a2 f2 (update_uuid a1 f1 h).2).2
              (update_uuid a1 f1 h).1.info.lineage))) := by
  refine ⟨?_, ?_, ?_⟩
  · intro a fresh h ha
    by_cases hs : a.info.seed = none <;>
      simp [update_uuid, ha, hs]
  · intro a fresh h x ha
    refine ⟨?_, ?_, ?_, ?_, ?_, ?_⟩
    · by_cases hs : a.info.seed = none <;> simp [update_uuid, ha, hs]
    · by_cases hs : a.info.seed = none <;> simp [update_uuid, ha, hs]
    · by_cases hs : a.info.seed = none <;>
        simp [update_uuid, ha, hs, Heap.deref, getD_append_length]
    · intro hns
      by_cases hs : a.info.seed = none
      · exact absurd hs hns
      · simp [update_uuid, ha, hs]
    · intro hs
      simp [update_uuid, ha, hs]
    · intro i hi
      have e : (update_uuid a fresh h).2 = h ++ [Heap.deref h a.info.lineage ++ [x]] := by
        simp [update_uuid, ha]
      rw [e]
      exact getD_append_lt h _ i [] hi
  · intro a1 a2 h x1 x2 f1 f2 h1 h2 hshare hvalid
    have e1 : (update_uuid a1 f1 h).2 = h ++ [Heap.deref h a1.info.lineage ++ [x1]] := by
      simp [update_uuid, h1]
    have e1l : (update_uuid a1 f1 h).1.info.lineage = some h.length := by
      by_cases hs : a1.info.seed = none <;> simp [update_uuid, h1, hs]
    have e2 : (update_uuid a2 f2 (update_uuid a1 f1 h).2).2
        = (update_uuid a1 f1 h).2
          ++ [Heap.deref (update_uuid a1 f1 h).2 a2.info.lineage ++ [x2]] := by
      simp [update_uuid, h2]
    have e2l : (update_uuid a2 f2 (update_uuid a1 f1 h).2).1.info.lineage
        = some (update_uuid a1 f1 h).2.length := by
      by_cases hs : a2.info.seed = none <;> simp [update_uuid, h2, hs]
    have hd : Heap.deref (update_uuid a1 f1 h).2 a2.info.lineage
        = Heap.deref h a1.info.lineage := by
      rw [← hshare, e1]
      exact deref_append_valid h _ a1.info.lineage hvalid
    have c1 : Heap.deref (update_uuid a2 f2 (update_uuid a1 f1 h).2).2
        (update_uuid a1 f1 h).1.info.lineage
        = Heap.deref h a1.info.lineage ++ [x1] := by
      rw [e2, e1l]
      rw [deref_append_valid]
      · rw [e1]
        simp only [Heap.deref]
        exact getD_append_length h _ []
      · intro i hi
        rw [e1]
        simp only [Option.some.injEq] at hi
        subst hi
        simp
    have c2 : Heap.deref (update_uuid a2 f2 (update_uuid a1 f1 h).2).2
        (update_uuid a2 f2 (update_uuid a1 f1 h).2).1.info.lineage
        = Heap.deref h a1.info.lineage ++ [x2] := by
      rw [e2, e2l, hd]
      simp only [Heap.deref]
      exact getD_append_length _ _ []
    exact ⟨c1, c2, fun hnot => by rw [c1]; exact hnot⟩

/-- A structure with no metadata at all. -/
def blankAtoms : Atoms :=
  { symbols := [], positions := [], cell := [], info := {} }

/-- A structure with uuid and seed set. -/
def seededAtoms : Atoms :=
  { symbols := [], positions := [], cell := [],
    info := { uuid := some "p", seed := some "s" } }

/-- First sibling: uuid `x1`, sharing lineage cell 0. -/
def sibling1 : Atoms :=
  { symbols := [], positions := [], cell := [],
    info := { uuid := some "x1", lineage := some 0, seed := some "s" } }

/-- Second sibling: uuid `x2`, sharing lineage cell 0. -/
def sibling2 : Atoms :=
  { symbols := [], positions := [], cell := [],
    info := { uuid := some "x2", lineage := some 0, seed := some "s" } }

/-- Witness for `update_uuid_lineage_spec` at concrete inputs: a fresh
structure, a structure with an existing uuid, and two siblings sharing the
lineage list of their parent. -/
theorem update_uuid_lineage_spec_witness :
    (blankAtoms.info.uuid = none
      ∧ (update_uuid blankAtoms "u" []).1.info.uuid = some "u")
    ∧ (seededAtoms.info.uuid = some "p"
      ∧ Heap.deref (update_uuid seededAtoms "u" []).2
          ((update_uuid seededAtoms "u" []).1.info.lineage) = ["p"])
    ∧ Heap.deref (update_uuid sibling2 "f2" (update_uuid sibling1 "f1" [["anc"]]).2).2
        ((update_uuid sibling1 "f1" [["anc"]]).1.info.lineage)
        = ["anc", "x1"] := by
  refine ⟨⟨rfl, (update_uuid_lineage_spec.1 blankAtoms "u" [] rfl).1⟩, ⟨rfl, ?_⟩, ?_⟩
  · have := (update_uuid_lineage_spec.2.1 seededAtoms "u" [] "p" rfl).2.2.1
    simpa [Heap.deref, seededAtoms] using this
  · have := (update_uuid_lineage_spec.2.2 sibling1 sibling2 [["anc"]]
      "x1" "x2" "f1" "f2" rfl rfl rfl ?_).1
    · simpa [Heap.deref, sibling1] using this
    · intro i hi
      have h2 : i = 0 := by
        have : some (0 : Nat) = some i := hi
        simpa using this.symm
      simp [h2]

/-! ## Lemmas: Python `min`/`max` over a list -/

theorem foldl_min_le_init : ∀ (l : List Int) (a : Int), l.foldl min a ≤ a
  | [], a => le_refl a
  | x :: xs, a => le_trans (foldl_min_le_init xs (min a x)) (min_le_left a x)

theorem foldl_min_le_mem : ∀ (l : List Int) (a x : Int), x ∈ l → l.foldl min a ≤ x
  | [], _, _, hx => absurd hx (List.not_mem_nil _)
  | y :: ys, a, x, hx => by
      rcases List.mem_cons.mp hx with h | h
      · subst h
        exact le_trans (foldl_min_le_init ys (min a x)) (min_le_right a x)
      · exact foldl_min_le_mem ys (min a y) x h

theorem init_le_foldl_max : ∀ (l : List Int) (a : Int), a ≤ l.foldl max a
  | [], a => le_refl a
  | x :: xs, a => le_trans (le_max_left a x) (init_le_foldl_max xs (max a x))

theorem mem_le_foldl_max : ∀ (l : List Int) (a x : Int), x ∈ l → x ≤ l.foldl max a
  | [], _, _, hx => absurd hx (List.not_mem_nil _)
  | y :: ys, a, x, hx => by
      rcases List.mem_cons.mp hx with h | h
      · subst h
        exact le_trans (le_max_right a x) (init_le_foldl_max ys (max a x))
      · exact mem_le_foldl_max ys (max a y) x h

/-- **C9**: calling `sample_space_groups` with a dimensionality outside
`[0, 3]`, or with any requested space group outside `[1, max_group]` for
that dimensionality (`max_group = 58, 75, 80, 230` for `dim = 0, 1, 2, 3`),
surfaces a `ValueError` to the caller before any structure is produced,
and the error is never recovered internally (the whole run is the error). -/
theorem sample_space_groups_validation
    (sampler : List Int → Stoich → List Atoms) (formulas : List Stoich)
    (minAtoms maxAtoms dim : Int) (sgs : List Int) :
    ((dim < 0 ∨ 3 < dim) →
      sampleSpaceGroups sampler formulas (some sgs) minAtoms maxAtoms dim
        = .error "dim must be in range [0, 3]!")
    ∧ (0 ≤ dim → dim ≤ 3 →
        ∀ g ∈ sgs, (g ≤ 0 ∨ maxGroupFor dim < g) →
        sampleSpaceGroups sampler formulas (some sgs) minAtoms maxAtoms dim
          = .error "spacegroups must be in range!") := by
  constructor
  · intro hdim
    have hcond : ¬ (0 ≤ dim ∧ dim ≤ 3) := by omega
    simp [sampleSpaceGroups, sampleSpaceGroupsValidate, hcond]
  · intro h0 h3 g hg hout
    have hcond : (0 ≤ dim ∧ dim ≤ 3) := ⟨h0, h3⟩
    cases sgs with
    | nil => cases hg
    | cons s0 srest =>
        have hif : srest.foldl min s0 ≤ 0 ∨ maxGroupFor dim < srest.foldl max s0 := by
          rcases hout with hle | hgt
          · left
            rcases List.mem_cons.mp hg with h | h
            · subst h
              exact le_trans (foldl_min_le_init srest g) hle
            · exact le_trans (foldl_min_le_mem srest s0 g h) hle
          · right
            rcases List.mem_cons.mp hg with h | h
            · subst h
              exact lt_of_lt_of_le hgt (init_le_foldl_max srest g)
            · exact lt_of_lt_of_le hgt (mem_le_foldl_max srest s0 g h)
        simp [sampleSpaceGroups, sampleSpaceGroupsValidate, hcond, hif]

/-- Witness for `sample_space_groups_validation`: `dim = 5` fails, and
`dim = 3` with requested group `231` fails. -/
theorem sample_space_groups_validation_witness :
    sampleSpaceGroups (fun _ _ => []) [] (some [1]) 1 10 5
      = .error "dim must be in range [0, 3]!"
    ∧ sampleSpaceGroups (fun _ _ => []) [] (some [231]) 1 10 3
      = .error "spacegroups must be in range!" :=
  ⟨(sample_space_groups_validation (fun _ _ => []) [] 1 10 5 [1]).1 (by norm_num),
    (sample_space_groups_validation (fun _ _ => []) [] 1 10 3 [231]).2 (by norm_num)
      (by norm_num) 231 (by simp) (by right; decide)⟩

/-- **C6** (evaluation at the failing input): `Formulas.range("Cu", 3)`
forwards to the builtin `range(3)` and therefore INCLUDES the zero count,
contradicting the class docstring and doctest ("it skips the zero",
showing the two maps with counts 1 and 2): the inner product with
`Formulas.range("Ag", 3)` has three entries including a zero-count map —
not the two-entry value the claim (and the doctest) states — and the outer
product has nine entries, not four. -/
theorem formulas_range_zero_divergence :
    (Formulas.rangeStop "Cu" 3).atoms = [[("Cu", 0)], [("Cu", 1)], [("Cu", 2)]]
    ∧ Formulas.orF (Formulas.rangeStop "Cu" 3) (Formulas.rangeStop "Ag" 3)
        = .ok ⟨[[("Cu", 0), ("Ag", 0)], [("Cu", 1), ("Ag", 1)], [("Cu", 2), ("Ag", 2)]]⟩
    ∧ Formulas.orF (Formulas.rangeStop "Cu" 3) (Formulas.rangeStop "Ag" 3)
        ≠ .ok ⟨[[("Cu", 1), ("Ag", 1)], [("Cu", 2), ("Ag", 2)]]⟩
    ∧ (match Formulas.mulF (Formulas.rangeStop "Cu" 3) (Formulas.rangeStop "Ag" 3) with
        | .ok f => f.atoms.length
        | .error _ => 0) = 9 := by
  decide

/-! ## Lemmas: the retry loop of `apply_perturbations` -/

/-- Filter that fails its first `k` evaluations and passes from evaluation
`k+1` on; the filter state counts its evaluations. -/
def countingFilterFailK (k : Nat) : Nat → Atoms → Bool × Nat :=
  fun c _ => (decide (k ≤ c), c + 1)

/-- Filter that always fails; the filter state counts its evaluations. -/
def countingFilterFalse : Nat → Atoms → Bool × Nat :=
  fun c _ => (false, c + 1)

/-- Perturbation that always raises `ValueError`; its state counts calls. -/
def countingErrPert : Nat → Atoms → (Except String Atoms) × Nat :=
  fun c _ => (.error "ValueError", c + 1)

theorem pairAttempts_failK {σ : Type} (pert : σ → Atoms → (Except String Atoms) × σ)
    (hok : ∀ st a, ∃ m st2, pert st a = (.ok m, st2)) (s : Atoms) (k : Nat) :
    ∀ (n c : Nat) (ps : σ), c ≤ k → k < c + n →
      (pairAttempts pert [countingFilterFailK k] s n ps c).1.length = 1
      ∧ (pairAttempts pert [countingFilterFailK k] s n ps c).2.2 = k + 1
  | 0, c, ps, hck, hkn => absurd hkn (by omega)
  | n + 1, c, ps, hck, hkn => by
      obtain ⟨m, st2, hm⟩ := hok ps s
      by_cases hc : c = k
      · subst hc
        simp [pairAttempts, hm, runFilters, countingFilterFailK]
      · have h1 : ¬ (k ≤ c) := by omega
        have hstep := pairAttempts_failK pert hok s k n (c + 1) st2 (by omega) (by omega)
        simp only [pairAttempts, hm, runFilters, countingFilterFailK]
        simp [h1, hstep.1, hstep.2]

theorem pairAttempts_false {σ : Type} (pert : σ → Atoms → (Except String Atoms) × σ)
    (hok : ∀ st a, ∃ m st2, pert st a = (.ok m, st2)) (s : Atoms) :
    ∀ (n c : Nat) (ps : σ),
      (pairAttempts pert [countingFilterFalse] s n ps c).1 = []
      ∧ (pairAttempts pert [countingFilterFalse] s n ps c).2.2 = c + n
  | 0, c, ps => ⟨rfl, rfl⟩
  | n + 1, c, ps => by
      obtain ⟨m, st2, hm⟩ := hok ps s
      have h := pairAttempts_false pert hok s n (c + 1) st2
      refine ⟨?_, ?_⟩
      · simp [pairAttempts, hm, runFilters, countingFilterFalse, h.1]
      · simp only [pairAttempts, hm, runFilters, countingFilterFalse]
        simp [h.2]
        omega

theorem pairAttempts_length_le_one {σ φ : Type}
    (pert : σ → Atoms → (Except String Atoms) × σ)
    (filts : List (φ → Atoms → Bool × φ)) (s : Atoms) :
    ∀ (n : Nat) (ps : σ) (fst : φ), (pairAttempts pert filts s n ps fst).1.length ≤ 1
  | 0, ps, fst => by simp [pairAttempts]
  | n + 1, ps, fst => by
      cases hp : pert ps s with
      | mk r ps2 =>
        cases r with
        | error e => simp [pairAttempts, hp]
        | ok m =>
            cases hr : runFilters filts fst m with
            | mk b fst2 =>
              cases b
              · simp only [pairAttempts, hp, hr]
                simpa using pairAttempts_length_le_one pert filts s n ps2 fst2
              · simp [pairAttempts, hp, hr]

theorem pairAttempts_error {σ φ : Type} (pert : σ → Atoms → (Except String Atoms) × σ)
    (hok : ∀ st a, ∃ e st2, pert st a = (.error e, st2))
    (filts : List (φ → Atoms → Bool × φ)) (s : Atoms) :
    ∀ (n : Nat) (ps : σ) (fst : φ),
      (pairAttempts pert filts s n ps fst).1 = []
      ∧ (pairAttempts pert filts s n ps fst).2.2 = fst
  | 0, ps, fst => ⟨rfl, rfl⟩
  | n + 1, ps, fst => by
      obtain ⟨e, st2, hm⟩ := hok ps s
      simp [pairAttempts, hm]

theorem perturbStructure_eq_pairs {σ φ : Type} (filts : List (φ → Atoms → Bool × φ))
    (retries : Nat) (s : Atoms) :
    ∀ (perts : List ((σ → Atoms → (Except String Atoms) × σ) × σ)) (fst : φ),
      (perturbStructure filts retries s perts fst).1
        = (perturbStructurePairs filts retries s perts fst).1.flatten
      ∧ (perturbStructure filts retries s perts fst).2
        = (perturbStructurePairs filts retries s perts fst).2
  | [], fst => ⟨rfl, rfl⟩
  | e :: rest, fst => by
      have h := perturbStructure_eq_pairs filts retries s rest
        (pairAttempts e.1 filts s retries e.2 fst).2.2
      constructor
      · simp only [perturbStructure, perturbStructurePairs, List.flatten]
        rw [h.1]
      · simp only [perturbStructure, perturbStructurePairs]
        rw [h.2]

theorem applyPerturbations_eq_pairs {σ φ : Type}
    (filts : List (φ → Atoms → Bool × φ)) (retries : Nat) :
    ∀ (structures : List Atoms)
      (perts : List ((σ → Atoms → (Except String Atoms) × σ) × σ)) (fst : φ),
      (applyPerturbations structures perts filts fst retries).1
        = (applyPerturbationsPairs structures perts filts fst retries).1.flatten
      ∧ (applyPerturbations structures perts filts fst retries).2
        = (applyPerturbationsPairs structures perts filts fst retries).2
  | [], perts, fst => ⟨rfl, rfl⟩
  | s :: ss, perts, fst => by
      have h1 := perturbStructure_eq_pairs filts retries s perts fst
      have h2 := applyPerturbations_eq_pairs filts retries ss
        (perturbStructure filts retries s perts fst).2.1
        (perturbStructure filts retries s perts fst).2.2
      have h21 : (perturbStructure filts retries s perts fst).2.1
          = (perturbStructurePairs filts retries s perts fst).2.1 := by rw [h1.2]
      have h22 : (perturbStructure filts retries s perts fst).2.2
          = (perturbStructurePairs filts retries s perts fst).2.2 := by rw [h1.2]
      constructor
      · simp only [applyPerturbations, applyPerturbationsPairs, List.flatten_append]
        rw [h1.1, h2.1, h21, h22]
      · simp only [applyPerturbations, applyPerturbationsPairs]
        rw [h2.2, h21, h22]

theorem perturbStructurePairs_le_one {σ φ : Type} (filts : List (φ → Atoms → Bool × φ))
    (retries : Nat) (s : Atoms) :
    ∀ (perts : List ((σ → Atoms → (Except String Atoms) × σ) × σ)) (fst : φ),
      ∀ l ∈ (perturbStructurePairs filts retries s perts fst).1, l.length ≤ 1
  | [], fst => by simp [perturbStructurePairs]
  | e :: rest, fst => by
      intro l hl
      simp only [perturbStructurePairs, List.mem_cons] at hl
      rcases hl with h | h
      · subst h
        exact pairAttempts_length_le_one e.1 filts s retries e.2 fst
      · exact perturbStructurePairs_le_one filts retries s rest _ l h

theorem applyPerturbationsPairs_le_one {σ φ : Type}
    (filts : List (φ → Atoms → Bool × φ)) (retries : Nat) :
    ∀ (structures : List Atoms)
      (perts : List ((σ → Atoms → (Except String Atoms) × σ) × σ)) (fst : φ),
      ∀ l ∈ (applyPerturbationsPairs structures perts filts fst retries).1, l.length ≤ 1
  | [], perts, fst => by simp [applyPerturbationsPairs]
  | s :: ss, perts, fst => by
      intro l hl
      simp only [applyPerturbationsPairs, List.mem_append] at hl
      rcases hl with h | h
      · exact perturbStructurePairs_le_one filts retries s perts fst l h
      · exact applyPerturbationsPairs_le_one filts retries ss _ _ l h

/-- **C2**: for any structure and any perturbation that never raises,
`apply_perturbations` with a single filter that fails on exactly its first
`k` evaluations (`k < retries`) and passes on evaluation `k+1` yields
exactly one result for the pair after exactly `k+1` filter evaluations;
with a filter that always fails it yields nothing after exactly `retries`
evaluations; in general no (structure, perturbation) pair ever produces
more than one yield, and the output is the in-order concatenation of the
per-pair yields, structure-major then perturbation-minor. -/
theorem apply_perturbations_retry_semantics :
    (∀ (σ : Type) (pert : σ → Atoms → (Except String Atoms) × σ),
      (∀ st a, ∃ m st2, pert st a = (.ok m, st2)) →
      ∀ (ps : σ) (s : Atoms) (k retries : Nat), k < retries →
        (applyPerturbations [s] [(pert, ps)] [countingFilterFailK k] 0 retries).1.length = 1
        ∧ (applyPerturbations [s] [(pert, ps)] [countingFilterFailK k] 0 retries).2.2 = k + 1)
    ∧ (∀ (σ : Type) (pert : σ → Atoms → (Except String Atoms) × σ),
      (∀ st a, ∃ m st2, pert st a = (.ok m, st2)) →
      ∀ (ps : σ) (s : Atoms) (retries : Nat),
        (applyPerturbations [s] [(pert, ps)] [countingFilterFalse] 0 retries).1 = []
        ∧ (applyPerturbations [s] [(pert, ps)] [countingFilterFalse] 0 retries).2.2 = retries)
    ∧ (∀ (σ φ : Type) (structures : List Atoms)
        (perts : List ((σ → Atoms → (Except String Atoms) × σ) × σ))
        (filts : List (φ → Atoms → Bool × φ)) (fst : φ) (retries : Nat),
        (applyPerturbations structures perts filts fst retries).1
          = (applyPerturbationsPairs structures perts filts fst retries).1.flatten)
    ∧ (∀ (σ φ : Type) (structures : List Atoms)
        (perts : List ((σ → Atoms → (Except String Atoms) × σ) × σ))
        (filts : List (φ → Atoms → Bool × φ)) (fst : φ) (retries : Nat),
        ∀ l ∈ (applyPerturbationsPairs structures perts filts fst retries).1,
          l.length ≤ 1) := by
  refine ⟨?_, ?_, ?_, ?_⟩
  · intro σ pert hok ps s k retries hk
    have h := pairAttempts_failK pert hok s k retries 0 ps (Nat.zero_le k) (by omega)
    constructor
    · simp only [applyPerturbations, perturbStructure, List.append_nil]
      exact h.1
    · simp only [applyPerturbations, perturbStructure]
      exact h.2
  · intro σ pert hok ps s retries
    have h := pairAttempts_false pert hok s retries 0 ps
    constructor
    · simp only [applyPerturbations, perturbStructure, List.append_nil]
      exact h.1
    · simp only [applyPerturbations, perturbStructure]
      rw [h.2]
      omega
  · intro σ φ structures perts filts fst retries
    exact (applyPerturbations_eq_pairs filts retries structures perts fst).1
  · intro σ φ structures perts filts fst retries
    exact applyPerturbationsPairs_le_one filts retries structures perts fst

/-- Witness for `apply_perturbations_retry_semantics` at concrete inputs:
the identity perturbation on a concrete structure, a filter failing once
then passing (`retries = 3`), and the always-failing filter. -/
theorem apply_perturbations_retry_semantics_witness :
    ((applyPerturbations [twoAtoms]
        [(fun (u : Unit) (a : Atoms) => ((.ok a : Except String Atoms), u), ())]
        [countingFilterFailK 1] 0 3).1.length = 1
      ∧ (applyPerturbations [twoAtoms]
        [(fun (u : Unit) (a : Atoms) => ((.ok a : Except String Atoms), u), ())]
        [countingFilterFailK 1] 0 3).2.2 = 2)
    ∧ ((applyPerturbations [twoAtoms]
        [(fun (u : Unit) (a : Atoms) => ((.ok a : Except String Atoms), u), ())]
        [countingFilterFalse] 0 3).1 = []
      ∧ (applyPerturbations [twoAtoms]
        [(fun (u : Unit) (a : Atoms) => ((.ok a : Except String Atoms), u), ())]
        [countingFilterFalse] 0 3).2.2 = 3) :=
  ⟨apply_perturbations_retry_semantics.1 Unit
      (fun u a => ((.ok a : Except String Atoms), u)) (fun st a => ⟨a, st, rfl⟩)
      () twoAtoms 1 3 (by omega),
    apply_perturbations_retry_semantics.2.1 Unit
      (fun u a => ((.ok a : Except String Atoms), u)) (fun st a => ⟨a, st, rfl⟩)
      () twoAtoms 3⟩

theorem applyPerturbations_error_head {σ φ : Type}
    (pert : σ → Atoms → (Except String Atoms) × σ)
    (hok : ∀ st a, ∃ e st2, pert st a = (.error e, st2))
    (filts : List (φ → Atoms → Bool × φ)) (retries : Nat) :
    ∀ (structures : List Atoms)
      (perts : List ((σ → Atoms → (Except String Atoms) × σ) × σ)) (fst : φ) (ps0 : σ),
      (applyPerturbations structures ((pert, ps0) :: perts) filts fst retries).1
        = (applyPerturbations structures perts filts fst retries).1
      ∧ (applyPerturbations structures ((pert, ps0) :: perts) filts fst retries).2.2
        = (applyPerturbations structures perts filts fst retries).2.2
      ∧ ∃ psN, (applyPerturbations structures ((pert, ps0) :: perts) filts fst retries).2.1
          = (pert, psN) :: (applyPerturbations structures perts filts fst retries).2.1
  | [], perts, fst, ps0 => ⟨rfl, rfl, ps0, rfl⟩
  | s :: ss, perts, fst, ps0 => by
      have hp := pairAttempts_error pert hok filts s retries ps0 fst
      obtain ⟨o1, o2, psN, o3⟩ := applyPerturbations_error_head pert hok filts retries ss
        (perturbStructure filts retries s perts fst).2.1
        (perturbStructure filts retries s perts fst).2.2
        (pairAttempts pert filts s retries ps0 fst).2.1
      refine ⟨?_, ?_, psN, ?_⟩
      · simp only [applyPerturbations, perturbStructure, hp.1, hp.2, List.nil_append]
        rw [o1]
      · simp only [applyPerturbations, perturbStructure, hp.1, hp.2]
        rw [o2]
      · simp only [applyPerturbations, perturbStructure, hp.1, hp.2]
        rw [o3]

theorem applyPerturbations_countErr {φ : Type} (filts : List (φ → Atoms → Bool × φ))
    (retries : Nat) (hr : 0 < retries) :
    ∀ (structures : List Atoms) (fst : φ) (c0 : Nat),
      (applyPerturbations structures [(countingErrPert, c0)] filts fst retries).1 = []
      ∧ (applyPerturbations structures [(countingErrPert, c0)] filts fst retries).2.1
          = [(countingErrPert, c0 + structures.length)]
      ∧ (applyPerturbations structures [(countingErrPert, c0)] filts fst retries).2.2 = fst
  | [], fst, c0 => ⟨rfl, by simp [applyPerturbations], rfl⟩
  | s :: ss, fst, c0 => by
      obtain ⟨n, hn⟩ : ∃ n, retries = n + 1 := ⟨retries - 1, by omega⟩
      have hpair : pairAttempts countingErrPert filts s retries c0 fst
          = ([], c0 + 1, fst) := by
        rw [hn]
        simp [pairAttempts, countingErrPert]
      have ih := applyPerturbations_countErr filts retries hr ss fst (c0 + 1)
      refine ⟨?_, ?_, ?_⟩
      · simp only [applyPerturbations, perturbStructure, hpair, List.nil_append]
        exact ih.1
      · simp only [applyPerturbations, perturbStructure, hpair]
        rw [ih.2.1]
        simp only [List.length_cons]
        congr 2
        omega
      · simp only [applyPerturbations, perturbStructure, hpair]
        exact ih.2.2

/-- **C4**: if a perturbation raises a `ValueError` on an attempt for a
(structure, perturbation) pair, all remaining retries for that pair are
abandoned immediately (the filters are not even consulted for that
attempt, so the error is not counted as a filter failure), nothing is
yielded for the pair, and iteration continues with the next
perturbation/structure — an always-raising perturbation is invisible in
the output stream, leaves the filter state untouched, and is called
exactly once per structure (never retried); the error never escapes the
driver. -/
theorem apply_perturbations_valueerror_semantics :
    (∀ (σ φ : Type) (pert : σ → Atoms → (Except String Atoms) × σ)
        (filts : List (φ → Atoms → Bool × φ)) (s : Atoms) (n : Nat)
        (ps ps2 : σ) (fst : φ) (e : String),
      pert ps s = (.error e, ps2) →
      pairAttempts pert filts s (n + 1) ps fst = ([], ps2, fst))
    ∧ (∀ (σ φ : Type) (pert : σ → Atoms → (Except String Atoms) × σ),
        (∀ st a, ∃ e st2, pert st a = (.error e, st2)) →
        ∀ (structures : List Atoms)
          (perts : List ((σ → Atoms → (Except String Atoms) × σ) × σ))
          (filts : List (φ → Atoms → Bool × φ)) (fst : φ) (retries : Nat) (ps0 : σ),
        (applyPerturbations structures ((pert, ps0) :: perts) filts fst retries).1
          = (applyPerturbations structures perts filts fst retries).1
        ∧ (applyPerturbations structures ((pert, ps0) :: perts) filts fst retries).2.2
          = (applyPerturbations structures perts filts fst retries).2.2)
    ∧ (∀ (φ : Type) (structures : List Atoms) (filts : List (φ → Atoms → Bool × φ))
        (fst : φ) (retries c0 : Nat), 0 < retries →
        (applyPerturbations structures [(countingErrPert, c0)] filts fst retries).1 = []
        ∧ (applyPerturbations structures [(countingErrPert, c0)] filts fst retries).2.1
            = [(countingErrPert, c0 + structures.length)]
        ∧ (applyPerturbations structures [(countingErrPert, c0)] filts fst retries).2.2
            = fst) := by
  refine ⟨?_, ?_, ?_⟩
  · intro σ φ pert filts s n ps ps2 fst e he
    simp [pairAttempts, he]
  · intro σ φ pert hok structures perts filts fst retries ps0
    have h := applyPerturbations_error_head pert hok filts retries structures perts fst ps0
    exact ⟨h.1, h.2.1⟩
  · intro φ structures filts fst retries c0 hr
    exact applyPerturbations_countErr filts retries hr structures fst c0

/-- Witness for `apply_perturbations_valueerror_semantics` at concrete
inputs: a perturbation raising on its only call, run by the driver on one
structure with three retries. -/
theorem apply_perturbations_valueerror_semantics_witness :
    (pairAttempts countingErrPert ([] : List (Nat → Atoms → Bool × Nat)) twoAtoms 3 0 0
        = ([], 1, 0))
    ∧ ((applyPerturbations [twoAtoms] [(countingErrPert, 0)]
          ([] : List (Nat → Atoms → Bool × Nat)) 0 3).1 = []
      ∧ (applyPerturbations [twoAtoms] [(countingErrPert, 0)]
          ([] : List (Nat → Atoms → Bool × Nat)) 0 3).2.1
          = [(countingErrPert, 0 + ([twoAtoms] : List Atoms).length)]
      ∧ (applyPerturbations [twoAtoms] [(countingErrPert, 0)]
          ([] : List (Nat → Atoms → Bool × Nat)) 0 3).2.2 = 0) :=
  ⟨apply_perturbations_valueerror_semantics.1 Nat Nat countingErrPert [] twoAtoms 2
      0 1 0 "ValueError" rfl,
    apply_perturbations_valueerror_semantics.2.2 Nat [twoAtoms] [] 0 3 0 (by omega)⟩
